import Mathlib

/-!
Shallow embedding of the request/response broker in `src/main.rs` and
`src/rbx_studio_server.rs` (repository `waefrebeorn/robloxMCP`).

The broker's shared state (`AppState` behind an `Arc<Mutex<_>>`) is modelled
as a record `Sys`; every critical section that the source executes while
holding the mutex becomes one pure function `Sys → ... → Sys × ...`.
`std::collections::HashMap` is modelled as an association list with
replace-on-insert semantics, `VecDeque` as a `List` (push_back = append,
pop_front = head), and each per-request `mpsc::unbounded_channel` as an
indexed message buffer in `Sys.chans` (a sender appends; the receiver of
channel `c` sees buffer `chans.getD c []`).
-/

namespace RbxMCP

/-- Model of `uuid::Uuid` (a 128-bit identifier), as a `Nat`. -/
abbrev Uuid := Nat

/-- Model of `rmcp::Error` (`McpError`); only its display text matters to the broker. -/
structure McpError where
  message : String
deriving DecidableEq, Repr

/-- A message on a per-request result channel:
`Result<String, McpError>` in the source. -/
abbrev PluginMsg := Except McpError String

instance : DecidableEq PluginMsg := fun a b =>
  match a, b with
  | .ok x, .ok y =>
      if h : x = y then .isTrue (by rw [h]) else .isFalse (by simp [h])
  | .ok _, .error _ => .isFalse (by simp)
  | .error _, .ok _ => .isFalse (by simp)
  | .error x, .error y =>
      if h : x = y then .isTrue (by rw [h]) else .isFalse (by simp [h])

/-- Model of `rmcp::model::CallToolResult`: a content list plus an error flag. -/
structure CallToolResult where
  content : List String
  isError : Bool
deriving DecidableEq, Repr

/-- Constructor `CallToolResult::success(contents)`. -/
def CallToolResult.success (c : List String) : CallToolResult := ⟨c, false⟩

/-- Constructor `CallToolResult::error(contents)`. -/
def CallToolResult.mkError (c : List String) : CallToolResult := ⟨c, true⟩

/-- The tagged argument variant `ToolArgumentValues` (rbx_studio_server.rs:138). -/
inductive ToolArgumentValues
  | RunCommand (command : String)
  | InsertModel (query : String)
  | ExecuteLuauByName (tool_name : String) (arguments_json : String)
deriving DecidableEq, Repr

/-- One unit of work, `ToolArguments` (rbx_studio_server.rs:148). -/
structure ToolArguments where
  args : ToolArgumentValues
  id : Option Uuid
deriving DecidableEq, Repr

/-- The body the plugin POSTs to `/response`, `RunCommandResponse`
(rbx_studio_server.rs:169). -/
structure RunCommandResponse where
  response : String
  id : Uuid
deriving DecidableEq, Repr

/-- Structure `DiscoveredTool` (rbx_studio_server.rs:47). -/
structure DiscoveredTool where
  file_path : String
deriving DecidableEq, Repr

/-! ### Association-list model of `std::collections::HashMap` -/

/-- Operation `HashMap::get` on the association-list model. -/
def alookup {κ α : Type} [DecidableEq κ] : List (κ × α) → κ → Option α
  | [], _ => none
  | (k', v) :: rest, k => if k' = k then some v else alookup rest k

/-- Operation `HashMap::remove` on the association-list model (drops every binding of
the key; `ainsert` keeps keys unique, so at most one exists). -/
def aremove {κ α : Type} [DecidableEq κ] : List (κ × α) → κ → List (κ × α)
  | [], _ => []
  | (k', v) :: rest, k =>
      if k' = k then aremove rest k else (k', v) :: aremove rest k

/-- Operation `HashMap::insert` (replaces any existing binding of the key). -/
def ainsert {κ α : Type} [DecidableEq κ] (m : List (κ × α)) (k : κ) (v : α) :
    List (κ × α) :=
  (k, v) :: aremove m k

/-! ### The broker state -/

/-- The broker's shared state: the fields of `AppState`
(rbx_studio_server.rs:96) that the claims are about, plus the pool of
per-request unbounded channels (`Sys.chans`); `output_map` stores, per task
id, the index of that request's channel, mirroring the stored
`mpsc::UnboundedSender`.  The `watch` trigger/waiter pair is a pure wake-up
signal and carries no data, so it has no counterpart here. -/
structure Sys where
  process_queue : List ToolArguments
  output_map : List (Uuid × Nat)
  chans : List (List PluginMsg)
  discovered_luau_tools : List (String × DiscoveredTool)
deriving DecidableEq, Repr

/-- The state right after `AppState::new()` with a given discovery result:
empty queue, empty output map. -/
def initSys (reg : List (String × DiscoveredTool)) : Sys :=
  { process_queue := [], output_map := [], chans := [], discovered_luau_tools := reg }

/-- Append one message to channel `c` (a `send` on the stored
`UnboundedSender`). -/
def sendOn (chans : List (List PluginMsg)) (c : Nat) (m : PluginMsg) :
    List (List PluginMsg) :=
  chans.set c ((chans.getD c []) ++ [m])

/-! ### Critical sections of the source, one function each -/

/-- Function `queue_command_and_get_trigger` (rbx_studio_server.rs:229-247): under the
state lock, push the task onto the back of `process_queue` and insert the
response sender into `output_map`, both before the lock is released. -/
def queue_command_and_get_trigger (s : Sys) (task : ToolArguments)
    (request_id : Uuid) (chan : Nat) : Sys :=
  { s with
      process_queue := s.process_queue ++ [task]
      output_map := ainsert s.output_map request_id chan }

/-- The enqueue half of `generic_tool_run` (rbx_studio_server.rs:250-276):
allocate a fresh response channel, then run `queue_command_and_get_trigger`
with a task that carries the fresh request id. -/
def generic_tool_run_enqueue (s : Sys) (args : ToolArgumentValues)
    (request_id : Uuid) : Sys × Nat :=
  let chan := s.chans.length
  let s' := { s with chans := s.chans ++ [[]] }
  (queue_command_and_get_trigger s' ⟨args, some request_id⟩ request_id chan, chan)

/-- Function `wait_for_plugin_response` (rbx_studio_server.rs:291-330).
`received` is what `response_receiver.recv().await` yielded: `none` models a
closed channel (Rust `None`), `some r` a delivered `Result<String, McpError>`.
The source awaits `recv()` with no timeout wrapper, so these are the only
outcomes. On `none` it returns an internal error without touching the state;
on `some r` it removes the request id from `output_map` and converts `r`
into an `Ok` `CallToolResult` (success contents, or error contents built
from the error's text). -/
def wait_for_plugin_response (s : Sys) (request_id : Uuid)
    (received : Option PluginMsg) : Sys × Except McpError CallToolResult :=
  match received with
  | none => (s, .error ⟨"Plugin response channel closed unexpectedly."⟩)
  | some r =>
      let s' := { s with output_map := aremove s.output_map request_id }
      match r with
      | .ok response_string => (s', .ok (CallToolResult.success [response_string]))
      | .error e => (s', .ok (CallToolResult.mkError [e.message]))

/-- Function `generic_tool_run` (rbx_studio_server.rs:250-287): enqueue, then wait for
and convert the plugin's response. -/
def generic_tool_run (s : Sys) (args : ToolArgumentValues) (request_id : Uuid)
    (received : Option PluginMsg) : Sys × Except McpError CallToolResult :=
  let p := generic_tool_run_enqueue s args request_id
  wait_for_plugin_response p.1 request_id received

/-- Function `response_handler` (rbx_studio_server.rs:417-443): remove the payload id
from `output_map`; if a sender was stored, send `Ok(payload.response)` on it;
otherwise log the stale response and drop it.  Either way the handler
answers `StatusCode::OK` (HTTP 200). -/
def response_handler (s : Sys) (payload : RunCommandResponse) : Sys × Nat :=
  match alookup s.output_map payload.id with
  | some c =>
      ({ s with
          output_map := aremove s.output_map payload.id
          chans := sendOn s.chans c (.ok payload.response) }, 200)
  | none =>
      ({ s with output_map := aremove s.output_map payload.id }, 200)

/-- The queue inspection `request_handler` performs each time round its loop
while holding the lock (rbx_studio_server.rs:449-457): pop the front of
`process_queue` if non-empty; `output_map` is not touched. -/
def request_handler_poll (s : Sys) : Sys × Option ToolArguments :=
  match s.process_queue with
  | [] => (s, none)
  | t :: rest => ({ s with process_queue := rest }, some t)

/-- The enqueue critical section of `proxy_handler`
(rbx_studio_server.rs:508-521): with a fresh channel for the given id, push
the command onto the back of `process_queue` and insert the sender into
`output_map`.  A command without an id is rejected (`400`) and the state is
untouched; `none` models that early return. -/
def proxy_handler_enqueue (s : Sys) (cmd : ToolArguments) : Sys × Option Nat :=
  match cmd.id with
  | none => (s, none)
  | some id =>
      let chan := s.chans.length
      (({ s with
          chans := s.chans ++ [[]]
          process_queue := s.process_queue ++ [cmd]
          output_map := ainsert s.output_map id chan }), some chan)

/-- The timeout / premature-close cleanup of `proxy_handler`
(rbx_studio_server.rs:548 and :562) and the post-receive cleanup of
`wait_for_plugin_response` (rbx_studio_server.rs:314) and of the dud-proxy
error path (rbx_studio_server.rs:653): remove the id from `output_map`
without touching the queue. -/
def output_map_cleanup (s : Sys) (id : Uuid) : Sys :=
  { s with output_map := aremove s.output_map id }

/-! ### Interleaving machine

The mutex serializes the critical sections above, so a concurrent execution
of the broker is a sequence of atomic state transformations.  `Cmd` names
one occurrence of each critical section; `step` applies it. -/

/-- One serialized critical section of the broker. -/
inductive Cmd
  | dispatch (args : ToolArgumentValues) (request_id : Uuid)
  | proxyDispatch (task : ToolArguments)
  | poll
  | submit (payload : RunCommandResponse)
  | cleanup (id : Uuid)
deriving DecidableEq, Repr

/-- Apply one critical section; the second component is the task a `poll`
handed out, if any. -/
def step (s : Sys) : Cmd → Sys × Option ToolArguments
  | .dispatch args id => ((generic_tool_run_enqueue s args id).1, none)
  | .proxyDispatch task => ((proxy_handler_enqueue s task).1, none)
  | .poll =>
      let p := request_handler_poll s
      (p.1, p.2)
  | .submit payload => ((response_handler s payload).1, none)
  | .cleanup id => (output_map_cleanup s id, none)

/-- Run a sequence of critical sections. -/
def run (s : Sys) : List Cmd → Sys
  | [] => s
  | c :: cs => run (step s c).1 cs

/-- The tasks handed out to pollers along a run, in order. -/
def outputs (s : Sys) : List Cmd → List ToolArguments
  | [] => []
  | c :: cs => (step s c).2.toList ++ outputs (step s c).1 cs

/-- The tasks enqueued along a command sequence, in dispatch order.
`dispatch` always enqueues its task with its fresh id; `proxyDispatch`
enqueues only when the command carries an id (else the handler answers 400
before touching the state). -/
def dispatched : List Cmd → List ToolArguments
  | [] => []
  | .dispatch args id :: cs => ⟨args, some id⟩ :: dispatched cs
  | .proxyDispatch t :: cs =>
      (if t.id.isSome then [t] else []) ++ dispatched cs
  | .poll :: cs => dispatched cs
  | .submit _ :: cs => dispatched cs
  | .cleanup _ :: cs => dispatched cs

/-- A queued task's pending-entry check: a task with id `i` is "pending" in
`s` when `output_map` has an entry for `i`. -/
def idPending (s : Sys) (t : ToolArguments) : Bool :=
  match t.id with
  | none => true
  | some i => (alookup s.output_map i).isSome

/-- The spec invariant of claim C2, as a decidable predicate: every id in
the task queue has an entry in the pending-results table. -/
def queueIdsPending (s : Sys) : Bool :=
  s.process_queue.all (idPending s)

/-- A critical section is "queue-respecting" when any pending-entry removal
it performs (a result submission or a timeout cleanup) targets an id that is
not currently sitting in the task queue. -/
def goodCmd (s : Sys) : Cmd → Bool
  | .submit payload => s.process_queue.all (fun t => t.id ≠ some payload.id)
  | .cleanup id => s.process_queue.all (fun t => t.id ≠ some id)
  | _ => true

/-- A run is queue-respecting when each of its steps is. -/
def goodRun (s : Sys) : List Cmd → Bool
  | [] => true
  | c :: cs => goodCmd s c && goodRun (step s c).1 cs

/-! ### Tool discovery (`discover_luau_tools`, rbx_studio_server.rs:52-92) -/

/-- One readable entry of the tools directory: its final path component and
whether it is a regular file.  Entries whose read errored are skipped by the
source (`entries.filter_map(Result::ok)`) and are not listed; names are
modelled as already valid UTF-8 (Lean strings), matching the source's
skipping of unconvertible names. -/
structure FsEntry where
  fileName : String
  isFile : Bool
deriving DecidableEq, Repr

/-- What the filesystem says about the tools directory. -/
inductive DirListing
  | missing
  | notDir
  | readErr
  | ok (entries : List FsEntry)
deriving DecidableEq, Repr

/-- Split a file name at its LAST dot: `splitLast s = some (st, ex)` means
`s = st ++ '.' :: ex` with no dot in `ex`; `none` when `s` has no dot. -/
def splitLast : List Char → Option (List Char × List Char)
  | [] => none
  | c :: t =>
      match splitLast t with
      | some (st, ex) => some (c :: st, ex)
      | none => if c = '.' then some ([], t) else none

/-- Rust `Path::file_stem` / `Path::extension` on a file name: no dot, or
only a leading dot, gives no extension and the whole name as stem; otherwise
split at the last dot. -/
def rustExtStem (name : List Char) : List Char × Option (List Char) :=
  match splitLast name with
  | none => (name, none)
  | some (st, ex) => if st = [] then (name, none) else (st, some ex)

/-- The file stem of an entry, as discovery keys it. -/
def stemOf (e : FsEntry) : String :=
  ⟨(rustExtStem e.fileName.data).1⟩

/-- The retention test of the discovery loop (rbx_studio_server.rs:69):
`path.is_file() && path.extension() == Some("luau")`. -/
def luauFileB (e : FsEntry) : Bool :=
  e.isFile && decide ((rustExtStem e.fileName.data).2 = some "luau".data)

/-- The path `entry.path()` denotes: directory joined with the file name. -/
def mkTool (dir : String) (e : FsEntry) : DiscoveredTool :=
  ⟨dir ++ "/" ++ e.fileName⟩

/-- One iteration of the discovery loop: retain a regular `.luau` file under
its stem (HashMap insert). -/
def discoverStep (dir : String) (tools : List (String × DiscoveredTool))
    (e : FsEntry) : List (String × DiscoveredTool) :=
  if luauFileB e then ainsert tools (stemOf e) (mkTool dir e) else tools

/-- Function `discover_luau_tools` (rbx_studio_server.rs:52-92): a missing path, a
non-directory path, or a `read_dir` failure yields the empty map; otherwise
fold the retention step over the listed entries. -/
def discover_luau_tools (dir : String) : DirListing → List (String × DiscoveredTool)
  | .missing => []
  | .notDir => []
  | .readErr => []
  | .ok entries => entries.foldl (discoverStep dir) []

/-! ### `execute_discovered_luau_tool` (rbx_studio_server.rs:395-414) -/

/-- Function `execute_discovered_luau_tool`: if `tool_name` is not a key of the
discovered-tool registry, return `Ok(CallToolResult::error(...))` naming the
missing tool, with the state untouched; otherwise forward to
`generic_tool_run` with the `ExecuteLuauByName` variant. -/
def execute_discovered_luau_tool (s : Sys) (tool_name tool_arguments_str : String)
    (request_id : Uuid) (received : Option PluginMsg) :
    Sys × Except McpError CallToolResult :=
  match alookup s.discovered_luau_tools tool_name with
  | none =>
      (s, .ok (CallToolResult.mkError
        ["Luau tool '" ++ tool_name ++ "' not found by server."]))
  | some _ =>
      generic_tool_run s
        (.ExecuteLuauByName tool_name tool_arguments_str) request_id received

/-! ### Routing and constants (`main.rs`, rbx_studio_server.rs:30-43) -/

/-- One axum route: HTTP method and path. -/
structure Route where
  method : String
  path : String
deriving DecidableEq, Repr

/-- The router built in `main` (main.rs:76-79):
`.route("/request", get(request_handler)).route("/response", post(response_handler))`. -/
def app_routes : List Route :=
  [⟨"GET", "/request"⟩, ⟨"POST", "/response"⟩]

/-- Constant `STUDIO_PLUGIN_PORT` (rbx_studio_server.rs:30). -/
def STUDIO_PLUGIN_PORT : Nat := 44755

/-- The bind address of the listener (main.rs:71-72):
`(Ipv4Addr::new(127, 0, 0, 1), STUDIO_PLUGIN_PORT)`. -/
def bind_addr : (Nat × Nat × Nat × Nat) × Nat :=
  ((127, 0, 0, 1), STUDIO_PLUGIN_PORT)

/-- Constant `LONG_POLL_DURATION` (rbx_studio_server.rs:39), in seconds. -/
def LONG_POLL_DURATION_secs : Nat := 15

/-- Constant `DUD_PROXY_REQUEST_TIMEOUT` (rbx_studio_server.rs:43), in seconds. -/
def DUD_PROXY_REQUEST_TIMEOUT_secs : Nat := 10

/-- Substring containment on strings, via list infixes. -/
def containsSub (s pat : String) : Prop :=
  pat.data <:+: s.data

instance (s pat : String) : Decidable (containsSub s pat) :=
  inferInstanceAs (Decidable (pat.data <:+: s.data))

/-- Specification helper for the discovery proofs: the LAST entry of the
list that is a regular `.luau` file with the given stem (`HashMap::insert`
makes later entries shadow earlier ones). -/
def findRevLuau (dir name : String) : List FsEntry → Option DiscoveredTool
  | [] => none
  | e :: rest =>
      match findRevLuau dir name rest with
      | some t => some t
      | none =>
          if luauFileB e = true ∧ stemOf e = name then some (mkTool dir e)
          else none

/-! ## Theorems

First the generic lemmas about the association-list model, then the
development for each claim. -/

theorem alookup_aremove_self {κ α : Type} [DecidableEq κ]
    (m : List (κ × α)) (k : κ) : alookup (aremove m k) k = none := by
  induction m with
  | nil => rfl
  | cons p rest ih =>
      obtain ⟨k', v⟩ := p
      by_cases h : k' = k <;> simp [aremove, alookup, h, ih]

theorem alookup_aremove_ne {κ α : Type} [DecidableEq κ]
    (m : List (κ × α)) (k k' : κ) (h : k' ≠ k) :
    alookup (aremove m k) k' = alookup m k' := by
  induction m with
  | nil => rfl
  | cons p rest ih =>
      obtain ⟨k₀, v⟩ := p
      by_cases hk : k₀ = k
      · subst hk
        have hne : k₀ ≠ k' := fun hh => h hh.symm
        simp [aremove, alookup, hne, ih]
      · by_cases hk' : k₀ = k'
        · subst hk'
          simp [aremove, alookup, hk]
        · simp [aremove, alookup, hk, hk', ih]

theorem alookup_ainsert_self {κ α : Type} [DecidableEq κ]
    (m : List (κ × α)) (k : κ) (v : α) : alookup (ainsert m k v) k = some v := by
  simp [ainsert, alookup]

theorem alookup_ainsert_ne {κ α : Type} [DecidableEq κ]
    (m : List (κ × α)) (k k' : κ) (v : α) (h : k' ≠ k) :
    alookup (ainsert m k v) k' = alookup m k' := by
  have hk : k ≠ k' := fun hh => h hh.symm
  simp [ainsert, alookup, hk, alookup_aremove_ne m k k' h]

theorem aremove_of_alookup_none {κ α : Type} [DecidableEq κ]
    (m : List (κ × α)) (k : κ) (h : alookup m k = none) : aremove m k = m := by
  induction m with
  | nil => rfl
  | cons p rest ih =>
      obtain ⟨k', v⟩ := p
      by_cases hk : k' = k
      · simp [alookup, hk] at h
      · simp [alookup, hk] at h
        simp [aremove, hk, ih h]

/-! ### Claim C3 — routing -/

/-- C3 counterexample: the router of `main` exposes two routes, not one,
and neither of them has path `/mcp`, refuting the single-route claim. -/
theorem C3_counterexample :
    app_routes.length = 2
      ∧ (app_routes.map Route.path).contains "/mcp" = false := by
  decide

/-- C3 (amended): the broker binds loopback `127.0.0.1` at port 44755 and
exposes exactly two routes, `GET /request` (plugin polls the next task,
`request_handler`) and `POST /response` (plugin submits a result,
`response_handler`); the two plugin operations are distinguished by route
path and method, not by an `X-MCP-Task-ID` header. -/
theorem C3_two_routes_on_loopback :
    app_routes = [⟨"GET", "/request"⟩, ⟨"POST", "/response"⟩]
      ∧ bind_addr = ((127, 0, 0, 1), 44755)
      ∧ STUDIO_PLUGIN_PORT = 44755 :=
  ⟨rfl, rfl, rfl⟩

/-! ### Claim C6 — submit-side HTTP statuses -/

/-- C6 counterexample: an accepted result submission (the id is tracked in
`output_map`) is answered with HTTP 200 (`StatusCode::OK`,
rbx_studio_server.rs:442), not with 204 No Content as claimed. -/
theorem C6_counterexample :
    (response_handler ⟨[], [(5, 0)], [[]], []⟩ ⟨"ok", 5⟩).2 = 200
      ∧ (response_handler ⟨[], [(5, 0)], [[]], []⟩ ⟨"ok", 5⟩).2 ≠ 204 := by
  decide

/-- C6 (amended): for every parsed result submission, `response_handler`
answers HTTP 200 — both when the submission is accepted and when it is
stale; the handler itself has no 204 and no 500 path (malformed bodies are
rejected upstream by the JSON extractor before the handler runs). -/
theorem C6_submit_always_200 (s : Sys) (payload : RunCommandResponse) :
    (response_handler s payload).2 = 200 := by
  cases h : alookup s.output_map payload.id <;> simp [response_handler, h]

/-! ### Claim C7 — long-poll constant -/

/-- C7 counterexample: `LONG_POLL_DURATION` is 15 seconds in the source
(rbx_studio_server.rs:39), not the claimed 25 seconds. -/
theorem C7_counterexample : LONG_POLL_DURATION_secs ≠ 25 := by
  decide

/-- C7 (amended): `LONG_POLL_DURATION` equals 15 seconds; the source
defines no `TOOL_EXECUTION_TIMEOUT`, and the bound its comments require is
`DUD_PROXY_REQUEST_TIMEOUT` (10 s) being less than `LONG_POLL_DURATION`;
15 s is also below the claimed 30-second figure. -/
theorem C7_long_poll_is_15s :
    LONG_POLL_DURATION_secs = 15
      ∧ DUD_PROXY_REQUEST_TIMEOUT_secs < LONG_POLL_DURATION_secs
      ∧ LONG_POLL_DURATION_secs ≤ 30 := by
  decide

/-! ### Claim C1 — dispatcher deadline -/

/-- C1 counterexample: when no result is received,
`wait_for_plugin_response` does not remove the pending entry and does not
return a "timed out after" error: the only errorless-receive outcome is the
closed-channel internal error, whose message does not contain the phrase
"timed out after", and the state (here with a pending entry for id 7) is
returned untouched. -/
theorem C1_counterexample :
    wait_for_plugin_response ⟨[], [(7, 0)], [[]], []⟩ 7 none
        = (⟨[], [(7, 0)], [[]], []⟩,
           Except.error ⟨"Plugin response channel closed unexpectedly."⟩)
      ∧ ¬ containsSub "Plugin response channel closed unexpectedly."
          "timed out after" :=
  ⟨rfl, by decide⟩

/-- C1 (amended): the dispatcher has no deadline: `wait_for_plugin_response`
awaits the result channel without any timeout, so it can wait indefinitely;
when the channel closes with no value it returns the internal error
"Plugin response channel closed unexpectedly." and leaves the pending table
untouched, and once any value is received it returns `Ok` and removes the
request id from `output_map`.  No `TOOL_EXECUTION_TIMEOUT`, no cleanup
command and no "timed out after" error exist in this code path. -/
theorem C1_wait_has_no_deadline (s : Sys) (request_id : Uuid)
    (received : Option PluginMsg) :
    (received = none →
        wait_for_plugin_response s request_id received
          = (s, .error ⟨"Plugin response channel closed unexpectedly."⟩))
      ∧ (∀ r, received = some r →
          (∃ res, (wait_for_plugin_response s request_id received).2 = .ok res)
            ∧ alookup (wait_for_plugin_response s request_id received).1.output_map
                request_id = none) := by
  constructor
  · intro h
    subst h
    rfl
  · intro r h
    subst h
    cases r with
    | ok str =>
        exact ⟨⟨CallToolResult.success [str], rfl⟩,
          alookup_aremove_self s.output_map request_id⟩
    | error e =>
        exact ⟨⟨CallToolResult.mkError [e.message], rfl⟩,
          alookup_aremove_self s.output_map request_id⟩

/-- C1 witness: the amended theorem applied at concrete inputs. -/
theorem C1_wait_has_no_deadline_witness :
    wait_for_plugin_response (initSys []) 3 none
        = (initSys [], .error ⟨"Plugin response channel closed unexpectedly."⟩)
      ∧ alookup (wait_for_plugin_response ⟨[], [(3, 0)], [[]], []⟩ 3
          (some (.ok "done"))).1.output_map 3 = none := by
  refine ⟨(C1_wait_has_no_deadline (initSys []) 3 none).1 rfl, ?_⟩
  exact ((C1_wait_has_no_deadline ⟨[], [(3, 0)], [[]], []⟩ 3
    (some (.ok "done"))).2 (.ok "done") rfl).2

/-! ### Claim C10 — plugin errors surface as soft tool-result errors -/

/-- C10: once any value arrives on the result channel, `generic_tool_run`
returns `Ok`; a received error value is converted into a successful MCP call
result carrying error content (`CallToolResult::error` with the error's
text); the protocol-level `Err` after queuing happens only for the
closed-channel case. -/
theorem C10_plugin_errors_are_soft (s : Sys) (args : ToolArgumentValues)
    (request_id : Uuid) (v : PluginMsg) :
    (∃ res, (generic_tool_run s args request_id (some v)).2 = .ok res)
      ∧ (∀ e, v = .error e →
          (generic_tool_run s args request_id (some v)).2
            = .ok (CallToolResult.mkError [e.message]))
      ∧ (generic_tool_run s args request_id none).2
          = .error ⟨"Plugin response channel closed unexpectedly."⟩ := by
  refine ⟨?_, ?_, rfl⟩
  · cases v with
    | ok str => exact ⟨CallToolResult.success [str], rfl⟩
    | error e => exact ⟨CallToolResult.mkError [e.message], rfl⟩
  · intro e h
    subst h
    rfl

/-- C10 witness: a plugin-side error value becomes an `Ok` call result with
error content. -/
theorem C10_plugin_errors_are_soft_witness :
    (generic_tool_run (initSys []) (.RunCommand "print(1)") 9
        (some (.error ⟨"boom"⟩))).2
      = .ok (CallToolResult.mkError ["boom"]) :=
  (C10_plugin_errors_are_soft (initSys []) (.RunCommand "print(1)") 9
    (.error ⟨"boom"⟩)).2.1 ⟨"boom"⟩ rfl

theorem getD_set_self {α : Type} (l : List α) (c : Nat) (v d : α)
    (h : c < l.length) : (l.set c v).getD c d = v := by
  induction l generalizing c with
  | nil => simp at h
  | cons a t ih =>
      cases c with
      | zero => rfl
      | succ n =>
          simp only [List.set, List.getD_cons_succ]
          exact ih n (Nat.lt_of_succ_lt_succ h)

/-! ### Claim C4 — result submission semantics -/

/-- C4: for every result submission carrying task id X, `response_handler`
removes X from `output_map`; if an entry for X existed, the result is sent
(exactly once) on that entry's channel; if no entry existed, the submission
is dropped with no state change; and an immediately repeated submission for
the same id is a no-op on the state. -/
theorem C4_submit_exactly_once (s : Sys) (payload : RunCommandResponse) :
    alookup (response_handler s payload).1.output_map payload.id = none
      ∧ (∀ c, alookup s.output_map payload.id = some c → c < s.chans.length →
          (response_handler s payload).1.chans.getD c []
            = s.chans.getD c [] ++ [Except.ok payload.response])
      ∧ (alookup s.output_map payload.id = none →
          (response_handler s payload).1 = s)
      ∧ response_handler (response_handler s payload).1 payload
          = ((response_handler s payload).1, 200) := by
  have h1 : alookup (response_handler s payload).1.output_map payload.id = none := by
    cases h : alookup s.output_map payload.id <;>
      simp [response_handler, h, alookup_aremove_self]
  refine ⟨h1, ?_, ?_, ?_⟩
  · intro c hc hlt
    simp only [response_handler, hc, sendOn]
    exact getD_set_self _ _ _ _ hlt
  · intro h
    simp [response_handler, h, aremove_of_alookup_none _ _ h]
  · set s' := (response_handler s payload).1 with hs'
    simp only [response_handler, h1, aremove_of_alookup_none _ _ h1]

/-- C4 witness: a tracked submission lands exactly the one result on the
stored channel and clears the pending entry. -/
theorem C4_submit_exactly_once_witness :
    (response_handler ⟨[], [(5, 0)], [[]], []⟩ ⟨"ok", 5⟩).1.chans.getD 0 []
        = [Except.ok "ok"]
      ∧ alookup (response_handler ⟨[], [(5, 0)], [[]], []⟩ ⟨"ok", 5⟩).1.output_map 5
        = none := by
  have h := C4_submit_exactly_once ⟨[], [(5, 0)], [[]], []⟩ ⟨"ok", 5⟩
  refine ⟨?_, h.1⟩
  have h2 := h.2.1 0 rfl (by decide)
  simpa using h2

/-! ### Claim C8 — unknown Luau tool -/

/-- C8: a call to `execute_discovered_luau_tool` whose `tool_name` is not a
key of the discovered-tool registry returns a successful (`Ok`) tool call
whose result is error content naming the missing tool — the message contains
"Luau tool (name) not found" — and the broker state is untouched: no
task is enqueued or dispatched toward the plugin. -/
theorem C8_unknown_luau_tool (s : Sys) (tool_name argsStr : String)
    (request_id : Uuid) (received : Option PluginMsg)
    (h : alookup s.discovered_luau_tools tool_name = none) :
    execute_discovered_luau_tool s tool_name argsStr request_id received
        = (s, .ok (CallToolResult.mkError
            ["Luau tool '" ++ tool_name ++ "' not found by server."]))
      ∧ containsSub ("Luau tool '" ++ tool_name ++ "' not found by server.")
          ("Luau tool '" ++ tool_name ++ "' not found") := by
  constructor
  · simp [execute_discovered_luau_tool, h]
  · have hfg : "' not found".data ++ " by server.".data
        = "' not found by server.".data := by decide
    refine ⟨[], " by server.".data, ?_⟩
    simp [containsSub, String.data_append, List.append_assoc, hfg]

/-- C8 witness: calling the facade with the unknown name "Nope" on an empty
registry returns the soft error and leaves the state unchanged. -/
theorem C8_unknown_luau_tool_witness :
    execute_discovered_luau_tool (initSys []) "Nope" "{}" 0 none
      = (initSys [], .ok (CallToolResult.mkError
          ["Luau tool '" ++ "Nope" ++ "' not found by server."])) :=
  (C8_unknown_luau_tool (initSys []) "Nope" "{}" 0 none rfl).1

/-! ### Claim C2 — queue ids have pending entries -/

/-- C2 counterexample: the invariant "every task id in the queue has an
entry in `output_map`" is not maintained in every reachable state: dispatch
a task (queued with a pending entry), then let `response_handler` process a
submission for that id while the task is still queued — the handler removes
the pending entry, leaving a queued task with no entry. -/
theorem C2_counterexample :
    queueIdsPending (run (initSys [])
        [.dispatch (.RunCommand "print(1)") 0, .submit ⟨"done", 0⟩]) = false
      ∧ (run (initSys [])
          [.dispatch (.RunCommand "print(1)") 0, .submit ⟨"done", 0⟩]).process_queue
        = [⟨.RunCommand "print(1)", some 0⟩] := by
  decide

theorem step_dispatch_spec (s : Sys) (args : ToolArgumentValues) (i : Uuid) :
    (step s (Cmd.dispatch args i)).1.process_queue
        = s.process_queue ++ [⟨args, some i⟩]
      ∧ (step s (Cmd.dispatch args i)).1.output_map
        = ainsert s.output_map i s.chans.length :=
  ⟨rfl, rfl⟩

theorem step_proxy_none_spec (s : Sys) (task : ToolArguments)
    (h : task.id = none) : (step s (Cmd.proxyDispatch task)).1 = s := by
  simp [step, proxy_handler_enqueue, h]

theorem step_proxy_some_spec (s : Sys) (task : ToolArguments) (i : Uuid)
    (h : task.id = some i) :
    (step s (Cmd.proxyDispatch task)).1.process_queue
        = s.process_queue ++ [task]
      ∧ (step s (Cmd.proxyDispatch task)).1.output_map
        = ainsert s.output_map i s.chans.length := by
  constructor <;> simp [step, proxy_handler_enqueue, h]

theorem step_poll_spec (s : Sys) :
    (step s Cmd.poll).1.output_map = s.output_map
      ∧ ∀ t ∈ (step s Cmd.poll).1.process_queue, t ∈ s.process_queue := by
  cases hq : s.process_queue with
  | nil => constructor <;> simp [step, request_handler_poll, hq]
  | cons t0 rest =>
      constructor
      · simp [step, request_handler_poll, hq]
      · intro t ht
        simp only [step, request_handler_poll, hq] at ht
        exact List.mem_cons_of_mem t0 ht

theorem step_submit_spec (s : Sys) (p : RunCommandResponse) :
    (step s (Cmd.submit p)).1.process_queue = s.process_queue
      ∧ (step s (Cmd.submit p)).1.output_map = aremove s.output_map p.id := by
  cases h : alookup s.output_map p.id <;>
    constructor <;> simp [step, response_handler, h]

theorem step_cleanup_spec (s : Sys) (i : Uuid) :
    (step s (Cmd.cleanup i)).1.process_queue = s.process_queue
      ∧ (step s (Cmd.cleanup i)).1.output_map = aremove s.output_map i :=
  ⟨rfl, rfl⟩

theorem goodCmd_preserves_queueIdsPending (s : Sys) (c : Cmd)
    (hinv : queueIdsPending s = true) (hc : goodCmd s c = true) :
    queueIdsPending (step s c).1 = true := by
  rw [queueIdsPending, List.all_eq_true] at hinv ⊢
  cases c with
  | dispatch args id =>
      intro t ht
      rw [(step_dispatch_spec s args id).1, List.mem_append,
        List.mem_singleton] at ht
      unfold idPending
      rw [(step_dispatch_spec s args id).2]
      rcases ht with ht | ht
      · cases hid : t.id with
        | none => rfl
        | some i =>
            have hpend : (alookup s.output_map i).isSome = true := by
              have h0 := hinv t ht
              unfold idPending at h0
              rw [hid] at h0
              exact h0
            by_cases hii : i = id
            · subst hii
              simp [alookup_ainsert_self]
            · simp [alookup_ainsert_ne _ _ _ _ hii, hpend]
      · subst ht
        simp [alookup_ainsert_self]
  | proxyDispatch task =>
      intro t ht
      cases hid0 : task.id with
      | none =>
          rw [step_proxy_none_spec s task hid0] at ht ⊢
          exact hinv t ht
      | some i0 =>
          rw [(step_proxy_some_spec s task i0 hid0).1, List.mem_append,
            List.mem_singleton] at ht
          unfold idPending
          rw [(step_proxy_some_spec s task i0 hid0).2]
          rcases ht with ht | ht
          · cases hid : t.id with
            | none => rfl
            | some i =>
                have hpend : (alookup s.output_map i).isSome = true := by
                  have h0 := hinv t ht
                  unfold idPending at h0
                  rw [hid] at h0
                  exact h0
                by_cases hii : i = i0
                · subst hii
                  simp [alookup_ainsert_self]
                · simp [alookup_ainsert_ne _ _ _ _ hii, hpend]
          · subst ht
            rw [hid0]
            simp [alookup_ainsert_self]
  | poll =>
      intro t ht
      have hmem := (step_poll_spec s).2 t ht
      have hpend := hinv t hmem
      unfold idPending at hpend ⊢
      rw [(step_poll_spec s).1]
      exact hpend
  | submit payload =>
      intro t ht
      rw [(step_submit_spec s payload).1] at ht
      have hne : t.id ≠ some payload.id := by
        unfold goodCmd at hc
        rw [List.all_eq_true] at hc
        simpa using hc t ht
      unfold idPending
      rw [(step_submit_spec s payload).2]
      cases hid : t.id with
      | none => rfl
      | some i =>
          have hpend : (alookup s.output_map i).isSome = true := by
            have h0 := hinv t ht
            unfold idPending at h0
            rw [hid] at h0
            exact h0
          have hii : i ≠ payload.id := fun hh => hne (by rw [hid, hh])
          show (alookup (aremove s.output_map payload.id) i).isSome = true
          rw [alookup_aremove_ne _ _ _ hii]
          exact hpend
  | cleanup id =>
      intro t ht
      rw [(step_cleanup_spec s id).1] at ht
      have hne : t.id ≠ some id := by
        unfold goodCmd at hc
        rw [List.all_eq_true] at hc
        simpa using hc t ht
      unfold idPending
      rw [(step_cleanup_spec s id).2]
      cases hid : t.id with
      | none => rfl
      | some i =>
          have hpend : (alookup s.output_map i).isSome = true := by
            have h0 := hinv t ht
            unfold idPending at h0
            rw [hid] at h0
            exact h0
          have hii : i ≠ id := fun hh => hne (by rw [hid, hh])
          show (alookup (aremove s.output_map id) i).isSome = true
          rw [alookup_aremove_ne _ _ _ hii]
          exact hpend

/-- C2 (amended): the operations that enqueue a task
(`queue_command_and_get_trigger` and `proxy_handler`'s critical section)
insert the result-channel entry in the same critical section, and dequeuing
(`request_handler`) removes a task only from the queue, never from the
pending table; consequently the invariant "every task id in `process_queue`
has an entry in `output_map`" is preserved along every run in which result
submissions and pending-table cleanups happen only for ids not currently
queued.  (The unconditional invariant is false: see the counterexample,
where a submission races a still-queued task.) -/
theorem C2_queue_pending_invariant (s : Sys) (cs : List Cmd)
    (hinv : queueIdsPending s = true) (hgood : goodRun s cs = true) :
    queueIdsPending (run s cs) = true
      ∧ (∀ s' : Sys, (step s' Cmd.poll).1.output_map = s'.output_map)
      ∧ (∀ (s' : Sys) (args : ToolArgumentValues) (i : Uuid),
          alookup (step s' (Cmd.dispatch args i)).1.output_map i
            = some s'.chans.length) := by
  refine ⟨?_, ?_, ?_⟩
  · induction cs generalizing s with
    | nil => simpa [run] using hinv
    | cons c cs ih =>
        rw [goodRun, Bool.and_eq_true] at hgood
        exact ih (step s c).1
          (goodCmd_preserves_queueIdsPending s c hinv hgood.1) hgood.2
  · intro s'
    cases hq : s'.process_queue <;> simp [step, request_handler_poll, hq]
  · intro s' args i
    simp [step, generic_tool_run_enqueue, queue_command_and_get_trigger,
      alookup_ainsert_self]

/-- C2 witness: the amended invariant on a concrete well-behaved run
(dispatch, poll, then submit for the already-dequeued id). -/
theorem C2_queue_pending_invariant_witness :
    queueIdsPending (run (initSys [])
        [.dispatch (.RunCommand "x") 0, .poll, .submit ⟨"ok", 0⟩]) = true :=
  (C2_queue_pending_invariant (initSys [])
    [.dispatch (.RunCommand "x") 0, .poll, .submit ⟨"ok", 0⟩]
    (by decide) (by decide)).1

/-! ### Claim C5 — first-in-first-out delivery -/

theorem outputs_append_queue (cs : List Cmd) (s : Sys) :
    outputs s cs ++ (run s cs).process_queue
      = s.process_queue ++ dispatched cs := by
  induction cs generalizing s with
  | nil => simp [outputs, run, dispatched]
  | cons c cs ih =>
      cases c with
      | dispatch args id =>
          simp only [outputs, run, dispatched]
          rw [List.append_assoc, ih, (step_dispatch_spec s args id).1]
          have h2 : (step s (Cmd.dispatch args id)).2 = none := rfl
          rw [h2]
          simp
      | proxyDispatch task =>
          simp only [outputs, run, dispatched]
          have h2 : (step s (Cmd.proxyDispatch task)).2 = none := by
            cases hid : task.id <;> simp [step, proxy_handler_enqueue, hid]
          cases hid : task.id with
          | none =>
              rw [List.append_assoc, ih, step_proxy_none_spec s task hid, h2]
              simp
          | some i =>
              rw [List.append_assoc, ih, (step_proxy_some_spec s task i hid).1,
                h2]
              simp
      | poll =>
          simp only [outputs, run, dispatched]
          cases hq : s.process_queue with
          | nil =>
              have h1 : (step s Cmd.poll).1 = s := by
                simp [step, request_handler_poll, hq]
              have h2 : (step s Cmd.poll).2 = none := by
                simp [step, request_handler_poll, hq]
              rw [List.append_assoc, ih, h1, h2]
              simp [hq]
          | cons t0 rest =>
              have h1 : (step s Cmd.poll).1.process_queue = rest := by
                simp [step, request_handler_poll, hq]
              have h2 : (step s Cmd.poll).2 = some t0 := by
                simp [step, request_handler_poll, hq]
              rw [List.append_assoc, ih, h1, h2]
              simp [hq]
      | submit payload =>
          simp only [outputs, run, dispatched]
          rw [List.append_assoc, ih, (step_submit_spec s payload).1]
          have h2 : (step s (Cmd.submit payload)).2 = none := rfl
          rw [h2]
          simp
      | cleanup id =>
          simp only [outputs, run, dispatched]
          rw [List.append_assoc, ih, (step_cleanup_spec s id).1]
          have h2 : (step s (Cmd.cleanup id)).2 = none := rfl
          rw [h2]
          simp

/-- C5: tasks are handed to pollers in first-in-first-out order of their
dispatch: starting from the initial state, the sequence of tasks handed out
by `poll` steps, followed by the tasks still queued, equals the sequence of
dispatched tasks in dispatch order — dispatch pushes to the back of
`process_queue` and polling pops from the front, so delivery order is a
prefix of dispatch order.  (The claim's "waiter immediately fulfilled"
exception never occurs in this code: there is no parked-waiter slot, every
task goes through the queue.) -/
theorem C5_fifo_delivery (reg : List (String × DiscoveredTool))
    (cs : List Cmd) :
    outputs (initSys reg) cs ++ (run (initSys reg) cs).process_queue
      = dispatched cs := by
  have h := outputs_append_queue cs (initSys reg)
  simpa [initSys] using h

/-! ### Claim C9 — tool discovery -/

theorem splitLast_eq (s st ex : List Char) (h : splitLast s = some (st, ex)) :
    s = st ++ '.' :: ex := by
  induction s generalizing st ex with
  | nil => simp [splitLast] at h
  | cons c t ih =>
      unfold splitLast at h
      cases hsp : splitLast t with
      | some p =>
          obtain ⟨st', ex'⟩ := p
          rw [hsp] at h
          simp only [Option.some.injEq, Prod.mk.injEq] at h
          obtain ⟨h1, h2⟩ := h
          subst h1
          subst h2
          rw [ih st' ex' hsp]
          rfl
      | none =>
          rw [hsp] at h
          by_cases hc : c = '.'
          · simp only [hc, if_true, Option.some.injEq, Prod.mk.injEq] at h
            obtain ⟨h1, h2⟩ := h
            subst h1
            subst h2
            simp [hc]
          · simp [hc] at h

theorem luau_fileName_decomp (e : FsEntry) (h : luauFileB e = true) :
    e.fileName.data = (stemOf e).data ++ '.' :: "luau".data := by
  unfold luauFileB at h
  rw [Bool.and_eq_true] at h
  have hext := of_decide_eq_true h.2
  unfold stemOf
  unfold rustExtStem at hext ⊢
  cases hsp : splitLast e.fileName.data with
  | none =>
      rw [hsp] at hext
      simp at hext
  | some p =>
      obtain ⟨st, ex⟩ := p
      rw [hsp] at hext
      by_cases hst : st = []
      · simp [hst] at hext
      · have hdec := splitLast_eq _ _ _ hsp
        simp only [hst, if_false, Option.some.injEq] at hext
        simp only [hst, if_false]
        rw [hdec, hext]

theorem luau_fileName_eq (e1 e2 : FsEntry) (h1 : luauFileB e1 = true)
    (h2 : luauFileB e2 = true) (hs : stemOf e1 = stemOf e2) :
    e1.fileName = e2.fileName := by
  apply String.ext
  rw [luau_fileName_decomp e1 h1, luau_fileName_decomp e2 h2, hs]

theorem findRevLuau_cons (dir name : String) (e : FsEntry)
    (rest : List FsEntry) :
    findRevLuau dir name (e :: rest)
      = match findRevLuau dir name rest with
        | some t => some t
        | none =>
            if luauFileB e = true ∧ stemOf e = name then some (mkTool dir e)
            else none := rfl

theorem alookup_discover_foldl (dir name : String) (entries : List FsEntry)
    (acc : List (String × DiscoveredTool)) :
    alookup (entries.foldl (discoverStep dir) acc) name
      = match findRevLuau dir name entries with
        | some t => some t
        | none => alookup acc name := by
  induction entries generalizing acc with
  | nil => simp [findRevLuau]
  | cons e rest ih =>
      rw [List.foldl_cons, ih, findRevLuau_cons]
      cases hr : findRevLuau dir name rest with
      | some t => rfl
      | none =>
          by_cases hl : luauFileB e = true
          · by_cases hs : stemOf e = name
            · show alookup (discoverStep dir acc e) name
                = match (if luauFileB e = true ∧ stemOf e = name
                    then some (mkTool dir e) else none) with
                  | some t => some t
                  | none => alookup acc name
              rw [if_pos ⟨hl, hs⟩, ← hs]
              simp [discoverStep, hl, alookup_ainsert_self]
            · show alookup (discoverStep dir acc e) name
                = match (if luauFileB e = true ∧ stemOf e = name
                    then some (mkTool dir e) else none) with
                  | some t => some t
                  | none => alookup acc name
              rw [if_neg (fun hh => hs hh.2)]
              simp [discoverStep, hl,
                alookup_ainsert_ne _ _ _ _ (fun hh => hs hh.symm)]
          · show alookup (discoverStep dir acc e) name
              = match (if luauFileB e = true ∧ stemOf e = name
                  then some (mkTool dir e) else none) with
                | some t => some t
                | none => alookup acc name
            rw [if_neg (fun hh => hl hh.1)]
            simp [discoverStep, hl]

theorem findRevLuau_mem (dir name : String) (entries : List FsEntry)
    (t : DiscoveredTool) (h : findRevLuau dir name entries = some t) :
    ∃ e, e ∈ entries ∧ luauFileB e = true ∧ stemOf e = name
      ∧ t = mkTool dir e := by
  induction entries with
  | nil => simp [findRevLuau] at h
  | cons e rest ih =>
      unfold findRevLuau at h
      cases hr : findRevLuau dir name rest with
      | some t' =>
          rw [hr] at h
          simp only [Option.some.injEq] at h
          subst h
          obtain ⟨e0, he0, hl0, hs0, ht0⟩ := ih hr
          exact ⟨e0, List.mem_cons_of_mem e he0, hl0, hs0, ht0⟩
      | none =>
          rw [hr] at h
          by_cases hcond : luauFileB e = true ∧ stemOf e = name
          · rw [if_pos hcond] at h
            simp only [Option.some.injEq] at h
            exact ⟨e, List.mem_cons_self e rest, hcond.1, hcond.2, h.symm⟩
          · rw [if_neg hcond] at h
            exact absurd h (by simp)

theorem findRevLuau_of_mem (dir : String) (entries : List FsEntry)
    (e : FsEntry) (hnd : (entries.map FsEntry.fileName).Nodup)
    (he : e ∈ entries) (hl : luauFileB e = true) :
    findRevLuau dir (stemOf e) entries = some (mkTool dir e) := by
  induction entries with
  | nil => simp at he
  | cons e' rest ih =>
      rw [List.map_cons, List.nodup_cons] at hnd
      obtain ⟨hne, hndr⟩ := hnd
      rcases List.mem_cons.mp he with he' | her
      · subst he'
        cases hr : findRevLuau dir (stemOf e) rest with
        | some t =>
            obtain ⟨e2, he2, hl2, hs2, -⟩ :=
              findRevLuau_mem dir (stemOf e) rest t hr
            have heq : e2.fileName = e.fileName :=
              luau_fileName_eq e2 e hl2 hl hs2
            have hmem := List.mem_map_of_mem FsEntry.fileName he2
            rw [heq] at hmem
            exact absurd hmem hne
        | none =>
            unfold findRevLuau
            rw [hr, if_pos ⟨hl, rfl⟩]
      · have hrest := ih hndr her
        unfold findRevLuau
        rw [hrest]

/-- C9: discovery enumerates exactly the given directory listing
(non-recursively) and retains precisely the regular files with extension
`luau`, each keyed by its file stem and holding its joined path — nothing
else is retained; a missing directory, a non-directory path, or an
unreadable directory each yield the empty mapping without failing.  The
hypothesis says the listing has no duplicate file names, which is true of
any real directory. -/
theorem C9_luau_discovery (dir : String) (entries : List FsEntry)
    (hnd : (entries.map FsEntry.fileName).Nodup) :
    (∀ e ∈ entries, luauFileB e = true →
        alookup (discover_luau_tools dir (.ok entries)) (stemOf e)
          = some (mkTool dir e))
      ∧ (∀ (name : String) (t : DiscoveredTool),
          alookup (discover_luau_tools dir (.ok entries)) name = some t →
          ∃ e, e ∈ entries ∧ luauFileB e = true ∧ name = stemOf e
            ∧ t = mkTool dir e)
      ∧ discover_luau_tools dir .missing = []
      ∧ discover_luau_tools dir .notDir = []
      ∧ discover_luau_tools dir .readErr = [] := by
  refine ⟨?_, ?_, rfl, rfl, rfl⟩
  · intro e he hl
    show alookup (entries.foldl (discoverStep dir) []) (stemOf e) = _
    rw [alookup_discover_foldl, findRevLuau_of_mem dir entries e hnd he hl]
  · intro name t h
    rw [show discover_luau_tools dir (.ok entries)
          = entries.foldl (discoverStep dir) [] from rfl,
      alookup_discover_foldl] at h
    cases hr : findRevLuau dir name entries with
    | none =>
        rw [hr] at h
        simp [alookup] at h
    | some t' =>
        rw [hr] at h
        have ht : t' = t := by simpa using h
        subst ht
        obtain ⟨e0, he0, hl0, hs0, ht0⟩ :=
          findRevLuau_mem dir name entries t' hr
        exact ⟨e0, he0, hl0, hs0.symm, ht0⟩

/-- C9 witness: a listing with one `.luau` regular file, one differently
extended file, and one `.luau` directory yields exactly the one tool. -/
theorem C9_luau_discovery_witness :
    alookup (discover_luau_tools "plugin/src/Tools"
        (.ok [⟨"CreateInstance.luau", true⟩, ⟨"notes.txt", true⟩,
              ⟨"Sub.luau", false⟩]))
      (stemOf ⟨"CreateInstance.luau", true⟩)
      = some (mkTool "plugin/src/Tools" ⟨"CreateInstance.luau", true⟩) :=
  (C9_luau_discovery "plugin/src/Tools"
      [⟨"CreateInstance.luau", true⟩, ⟨"notes.txt", true⟩, ⟨"Sub.luau", false⟩]
      (by decide)).1
    ⟨"CreateInstance.luau", true⟩ (by decide) (by decide)

end RbxMCP
